import Mathlib

/-!
Verification of the Jerk motorcycle-spec scraper (src/main.py).

The development shallowly embeds the pure core of the program:
  * Python `float()` / `int()` conversion on the relevant input grammar,
    over exact rationals (`ℚ` models the float value of a decimal literal);
  * Python `str.splitlines` / `'\n'.join` used by the page-list cache;
  * the three `re.search` patterns of the program, modelled by an explicit
    leftmost-start, greedy-with-backtracking matcher for patterns of the
    shapes `(.+)mid(.+)suf` and `(.+)suf`;
  * BeautifulSoup documents as a tree of elements and text nodes, with
    `find(["a","b"], string=key)`, `.string`, `.text`, `find_all`,
    and parent traversal;
  * the extraction functions `retrieve_entry`, `parse_power`,
    `parse_weight`, `parse_power_weight_ratio`, `retrieve_page` and the
    cache logic of `parse_sitemap`.  Python exceptions (ValueError from
    a failed conversion, AttributeError / IndexError from traversal) are
    modelled with `Except String`.
-/

set_option maxRecDepth 100000

abbrev Chars := List Char

/-- Python's `str.replace(',', '')` applied before every float conversion. -/
def stripCommas (s : Chars) : Chars := s.filter (fun c => c ≠ ',')

/-- ASCII whitespace accepted by Python's `float()` / `int()` and
matched by the regex class `\s`. -/
def isPyWs (c : Char) : Bool :=
  c == ' ' || c == '\t' || c == '\n' || c == '\r' || c == '\x0b' || c == '\x0c'

def dropTrail (p : Char → Bool) (s : Chars) : Chars := (s.reverse.dropWhile p).reverse

def stripWs (s : Chars) : Chars := dropTrail isPyWs (s.dropWhile isPyWs)

def natOfDigits (ds : Chars) : ℕ := ds.foldl (fun a c => a * 10 + (c.toNat - 48)) 0

/-- Modelled from Python semantics: the mantissa part of `float(s)`,
`digits [. digits]` with at least one digit, returning its exact value
and the unconsumed rest. -/
def pyFloatMantissa (s : Chars) : Option (ℚ × Chars) :=
  let ip := s.takeWhile Char.isDigit
  let r1 := s.dropWhile Char.isDigit
  match r1 with
  | '.' :: r2 =>
    let fp := r2.takeWhile Char.isDigit
    let r3 := r2.dropWhile Char.isDigit
    if ip.isEmpty && fp.isEmpty then none
    else some ((natOfDigits ip : ℚ) + (natOfDigits fp : ℚ) / ((10 : ℚ) ^ fp.length), r3)
  | _ => if ip.isEmpty then none else some ((natOfDigits ip : ℚ), r1)

/-- Modelled from Python semantics: an optional exponent suffix
`(e|E)[+|-]digits` of `float(s)`, returned as a multiplier. -/
def pyExp (s : Chars) : Option ℚ :=
  match s with
  | [] => some 1
  | c :: r =>
    if c == 'e' || c == 'E' then
      let sr : Bool × Chars :=
        match r with
        | '+' :: t => (true, t)
        | '-' :: t => (false, t)
        | t => (true, t)
      if sr.2 ≠ [] ∧ sr.2.all Char.isDigit then
        some (if sr.1 then (10 : ℚ) ^ natOfDigits sr.2 else ((10 : ℚ) ^ natOfDigits sr.2)⁻¹)
      else none
    else none

/-- Modelled from Python semantics: `float(s)` on decimal literals
(sign, digits, fraction, exponent); `none` is a `ValueError`.
The exact rational value of the literal stands for the float. -/
def pyFloat (s : Chars) : Option ℚ :=
  let t := stripWs s
  let sr : ℚ × Chars :=
    match t with
    | '+' :: u => (1, u)
    | '-' :: u => (-1, u)
    | u => (1, u)
  match pyFloatMantissa sr.2 with
  | none => none
  | some (m, rest) =>
    match pyExp rest with
    | none => none
    | some e => some (sr.1 * m * e)

/-- Modelled from Python semantics: `int(s)` on a decimal string
(whitespace-stripped, optional sign, digits); `none` is a `ValueError`. -/
def pyInt (s : Chars) : Option ℤ :=
  let t := stripWs s
  let sr : ℤ × Chars :=
    match t with
    | '+' :: u => (1, u)
    | '-' :: u => (-1, u)
    | u => (1, u)
  if sr.2 ≠ [] ∧ sr.2.all Char.isDigit then some (sr.1 * (natOfDigits sr.2 : ℤ)) else none

/-- The line-break characters of Python's `str.splitlines`. -/
def lineBreakChar (c : Char) : Bool :=
  c == '\n' || c == '\r' || c == '\x0b' || c == '\x0c' ||
  c == '\x1c' || c == '\x1d' || c == '\x1e' || c == '\x85' ||
  c == '\u2028' || c == '\u2029'

/-- Modelled from Python semantics: `str.splitlines` (accumulator holds the
current line reversed, the flag whether the previous character was `\r` so
that a following `\n` is part of the same break); a trailing break opens
no empty final line. -/
def splitGo : Chars → Chars → Bool → List Chars
  | [], acc, _ => if acc.isEmpty then [] else [acc.reverse]
  | c :: rest, acc, prevCR =>
    if prevCR && (c == '\n') then
      splitGo rest acc false
    else if lineBreakChar c then
      acc.reverse :: splitGo rest [] (c == '\r')
    else
      splitGo rest (c :: acc) false

def pySplitlines (s : String) : List String := (splitGo s.data [] false).map String.mk

/-- Modelled from Python semantics: `'\n'.join(l)`. -/
def joinNl : List String → String
  | [] => ""
  | [u] => u
  | u :: rest => u ++ "\n" ++ joinNl rest

/-! ## The `re.search` model

The program uses three patterns built from `(.+)` groups and literal pieces:
`(.+) HP \((.+)  kW\)\)`, `(.+) kg \((.+) pounds\)` and `(.+) HP/kg`.
`search2 mid suf` models `re.search` for `(.+)mid(.+)suf`, and
`search1 suf` models `re.search` for `(.+)suf`: the match start is the
leftmost position admitting a match, each `(.+)` is greedy with
backtracking, and `.` matches any character except `'\n'`. -/

/-- Candidate group lengths in greedy (descending) order. -/
def descRange (n : ℕ) : List ℕ := (List.range (n + 1)).reverse

/-- `(.+)` may not cross a newline. -/
def noNl (g : Chars) : Bool := g.all (fun c => c ≠ '\n')

/-- Greedy match of the final `(.+)suf` against `rest` (suffix of text after
the match may be arbitrary, since `re.search` does not anchor). -/
def greedyTail (suf rest : Chars) : Option Chars :=
  (descRange rest.length).findSome? (fun n =>
    if 1 ≤ n ∧ noNl (rest.take n) = true ∧ suf.isPrefixOf (rest.drop n) = true then
      some (rest.take n)
    else none)

/-- Match of `(.+)mid(.+)suf` at start position `i`, first group greedy with
backtracking into the rest of the pattern. -/
def matchTwoFrom (mid suf s : Chars) (i : ℕ) : Option (Chars × Chars) :=
  (descRange (s.drop i).length).findSome? (fun m =>
    if 1 ≤ m ∧ noNl ((s.drop i).take m) = true ∧ mid.isPrefixOf ((s.drop i).drop m) = true then
      match greedyTail suf ((s.drop i).drop (m + mid.length)) with
      | some g2 => some ((s.drop i).take m, g2)
      | none => none
    else none)

/-- `re.search` for `(.+)mid(.+)suf`: leftmost start position wins. -/
def search2 (mid suf s : Chars) : Option (Chars × Chars) :=
  (List.range (s.length + 1)).findSome? (matchTwoFrom mid suf s)

/-- Match of `(.+)suf` at start position `i`, greedy. -/
def matchOneFrom (suf s : Chars) (i : ℕ) : Option Chars :=
  (descRange (s.drop i).length).findSome? (fun m =>
    if 1 ≤ m ∧ noNl ((s.drop i).take m) = true ∧ suf.isPrefixOf ((s.drop i).drop m) = true then
      some ((s.drop i).take m)
    else none)

/-- `re.search` for `(.+)suf`: leftmost start position wins. -/
def search1 (suf s : Chars) : Option Chars :=
  (List.range (s.length + 1)).findSome? (matchOneFrom suf s)

/-! ## The document model (BeautifulSoup trees) -/

/-- A parsed HTML document node: an element with a tag and children, or text. -/
inductive Node where
  | elem (tag : String) (children : List Node)
  | text (s : String)

def tagOf : Node → Option String
  | .elem t _ => some t
  | .text _ => none

mutual
/-- BeautifulSoup `.text` / `get_text()`: all descendant text, concatenated. -/
def textOf : Node → String
  | .text s => s
  | .elem _ cs => textOfList cs

def textOfList : List Node → String
  | [] => ""
  | n :: ns => textOf n ++ textOfList ns
end

/-- BeautifulSoup `.string`: the text of a single-child chain, else `None`. -/
def nodeString : Node → Option String
  | .text s => some s
  | .elem _ [c] => nodeString c
  | .elem _ _ => none

mutual
/-- BeautifulSoup `find_all(t)` over a sequence of sibling subtrees,
in document (pre-)order. -/
def findAllList (t : String) : List Node → List Node
  | [] => []
  | n :: rest => findAllSelf t n ++ findAllList t rest

def findAllSelf (t : String) : Node → List Node
  | .text _ => []
  | .elem tg cs => (if tg == t then [Node.elem tg cs] else []) ++ findAllList t cs
end

/-- BeautifulSoup `find_all(t)` on a node: matching descendants only. -/
def findAllN (t : String) : Node → List Node
  | .text _ => []
  | .elem _ cs => findAllList t cs

/-- Does the element's `.string` exist and satisfy the key?  This is how
`find(..., string=key)` filters: a plain-string key compares for equality,
a compiled regex key is applied with `search`; both are a `String → Bool`. -/
def keyMatches (key : String → Bool) (n : Node) : Bool :=
  match nodeString n with
  | some s => key s
  | none => false

mutual
/-- `soup.find(["a", "b"], string=key)` over a node, also returning the
ancestor chain (nearest parent first) so that `.parent` is recoverable. -/
def findN (key : String → Bool) (n : Node) (ancs : List Node) :
    Option (Node × List Node) :=
  match n with
  | .text _ => none
  | .elem tg cs =>
    if (tg == "a" || tg == "b") && keyMatches key (Node.elem tg cs) then
      some (Node.elem tg cs, ancs)
    else
      findL key cs (Node.elem tg cs :: ancs)

def findL (key : String → Bool) (ns : List Node) (ancs : List Node) :
    Option (Node × List Node) :=
  match ns with
  | [] => none
  | n :: rest =>
    match findN key n ancs with
    | some r => some r
    | none => findL key rest ancs
end

/-- `soup.find(["a", "b"], string=key)`: first match among the document's
descendants in document order, with its ancestor chain. -/
def findAB (soup : Node) (key : String → Bool) : Option (Node × List Node) :=
  match soup with
  | .text _ => none
  | .elem tg cs => findL key cs [Node.elem tg cs]

/-- `row.find_all('td')[1].text`: the text of the second `td` descendant;
too few cells is an `IndexError`. -/
def secondTdText (row : Node) : Except String String :=
  match findAllN ("td") row with
  | _ :: c :: _ => .ok (textOf c)
  | _ => .error ("IndexError")

/-- `retrieve_entry` of src/main.py: find the label as an `a` or `b`
element; an `a` label reads the second cell of its three-level ancestor,
a `b` label the second cell of its two-level ancestor.  Walking above the
document root is an `AttributeError`. -/
def retrieve_entry (soup : Node) (key : String → Bool) : Except String (Option String) :=
  match findAB soup key with
  | none => .ok none
  | some (found, ancs) =>
    if tagOf found == some ("a") then
      match ancs with
      | _ :: _ :: p3 :: _ => Except.map some (secondTdText p3)
      | _ => .error ("AttributeError")
    else
      match ancs with
      | _ :: p2 :: _ => Except.map some (secondTdText p2)
      | _ => .error ("AttributeError")

/-! ## The label specifications (the `key` arguments of src/main.py)

Each is the boolean outcome of matching the tag's `.string` against the
key: plain-string keys compare for equality, compiled-regex keys are
`re.search`, so an alternation holds iff some branch occurs in the text. -/

/-- Does `pat` occur as a contiguous substring? -/
def isContained (pat l : Chars) : Bool :=
  (List.range (l.length + 1)).any (fun i => pat.isPrefixOf (l.drop i))

/-- Does `pat` occur followed immediately by at least two `\s` characters? -/
def hasSubThenWs2 (pat l : Chars) : Bool :=
  (List.range (l.length + 1)).any (fun i =>
    pat.isPrefixOf (l.drop i) &&
    (match l.drop (i + pat.length) with
     | a :: b :: _ => isPyWs a && isPyWs b
     | _ => false))

/-- Do at least two `\s` characters occur followed immediately by `pat`? -/
def hasWs2ThenSub (pat l : Chars) : Bool :=
  (List.range (l.length + 1)).any (fun i =>
    match l.drop i with
    | a :: b :: rest => isPyWs a && isPyWs b && pat.isPrefixOf rest
    | _ => false)

/-- `re.compile(R"Model|Motorcycle name")` used for the name field. -/
def modelKey (s : String) : Bool :=
  isContained ("Model").data s.data || isContained ("Motorcycle name").data s.data

/-- `re.compile(R"Power\s{2,}|Power output|Output|Effect")`. -/
def powerKey (s : String) : Bool :=
  hasSubThenWs2 ("Power").data s.data || isContained ("Power output").data s.data ||
  isContained ("Output").data s.data || isContained ("Effect").data s.data

/-- `re.compile(R"Weight incl. oil")`; the `.` matches any non-newline. -/
def wetKey (s : String) : Bool :=
  (List.range (s.data.length + 1)).any (fun i =>
    ("Weight incl").data.isPrefixOf (s.data.drop i) &&
    (match s.data.drop (i + 11) with
     | c :: rest => c != '\n' && (" oil").data.isPrefixOf rest
     | [] => false))

/-- `re.compile(R"Dry weight")`. -/
def dryKey (s : String) : Bool := isContained ("Dry weight").data s.data

/-- `re.compile(R"\s{2,}Year|Year model|Year of manufacture|Model year")`. -/
def yearKey (s : String) : Bool :=
  hasWs2ThenSub ("Year").data s.data || isContained ("Year model").data s.data ||
  isContained ("Year of manufacture").data s.data || isContained ("Model year").data s.data

/-- The plain-string key `"Torque"` (exact `.string` equality). -/
def torqueKey (s : String) : Bool := s == "Torque"

/-- The plain-string key `"Displacement"` (exact `.string` equality). -/
def displacementKey (s : String) : Bool := s == "Displacement"

/-- `re.compile(R"Power/weight")`. -/
def ratioKey (s : String) : Bool := isContained ("Power/weight").data s.data

/-! ## The numeric parsers of src/main.py -/

def powMid : Chars := (" HP (").data
def powSuf : Chars := ("  kW))").data
def wgtMid : Chars := (" kg (").data
def wgtSuf : Chars := (" pounds)").data
def ratSuf : Chars := (" HP/kg").data

/-- The regex-and-convert step of `parse_power` on the located entry text:
`re.search(R"(.+) HP \((.+)  kW\)\)", entry)`, then
`float(match[i].replace(',', ''))` on each capture.  A failed search is a
logged miss (both halves absent); a failed conversion is a ValueError. -/
def parsePowerText (entry : String) : Except String (Option ℚ × Option ℚ) :=
  match search2 powMid powSuf entry.data with
  | none => .ok (none, none)
  | some (g1, g2) =>
    match pyFloat (stripCommas g1) with
    | none => .error ("ValueError: float")
    | some a =>
      match pyFloat (stripCommas g2) with
      | none => .error ("ValueError: float")
      | some b => .ok (some a, some b)

/-- `parse_power` of src/main.py. -/
def parse_power (soup : Node) : Except String (Option ℚ × Option ℚ) :=
  match retrieve_entry soup powerKey with
  | .error e => .error e
  | .ok none => .ok (none, none)
  | .ok (some entry) => parsePowerText entry

/-- The regex-and-convert step of `parse_weight` on the located entry text:
`re.search(R"(.+) kg \((.+) pounds\)", entry)` plus comma-stripping float
conversion of both captures. -/
def parseWeightText (entry : String) : Except String (Option ℚ × Option ℚ) :=
  match search2 wgtMid wgtSuf entry.data with
  | none => .ok (none, none)
  | some (g1, g2) =>
    match pyFloat (stripCommas g1) with
    | none => .error ("ValueError: float")
    | some a =>
      match pyFloat (stripCommas g2) with
      | none => .error ("ValueError: float")
      | some b => .ok (some a, some b)

/-- `parse_weight` of src/main.py. -/
def parse_weight (soup : Node) (key : String → Bool) :
    Except String (Option ℚ × Option ℚ) :=
  match retrieve_entry soup key with
  | .error e => .error e
  | .ok none => .ok (none, none)
  | .ok (some entry) => parseWeightText entry

/-- Python truthiness of an optional float: `None` and `0.0` are falsy. -/
def pyTruthy : Option ℚ → Bool
  | none => false
  | some x => x != 0

/-- The regex-and-convert step on a located `Power/weight` entry:
`re.search(R"(.+) HP/kg", entry)` plus comma-stripping float conversion. -/
def parseRatioText (entry : String) : Except String (Option ℚ) :=
  match search1 ratSuf entry.data with
  | none => .ok none
  | some g =>
    match pyFloat (stripCommas g) with
    | none => .error ("ValueError: float")
    | some v => .ok (some v)

/-- `parse_power_weight_ratio` of src/main.py: an explicit located entry is
parsed and returned; otherwise the ratio is derived from power and wet
weight, else power and dry weight, under Python truthiness guards. -/
def parse_power_weight_ratio (soup : Node) (power_hp wet_weight_kg dry_weight_kg : Option ℚ) :
    Except String (Option ℚ) :=
  match retrieve_entry soup ratioKey with
  | .error e => .error e
  | .ok none =>
    if pyTruthy power_hp then
      if pyTruthy wet_weight_kg then
        .ok (some (power_hp.getD 0 / wet_weight_kg.getD 0))
      else if pyTruthy dry_weight_kg then
        .ok (some (power_hp.getD 0 / dry_weight_kg.getD 0))
      else .ok none
    else .ok none
  | .ok (some entry) => parseRatioText entry

/-! ## Record extraction (`retrieve_page`) -/

/-- The per-page record assembled by `retrieve_page` (the `entries` dict). -/
structure Record where
  model : Option String
  year : Option ℤ
  power_hp : Option ℚ
  power_kw : Option ℚ
  torque : Option String
  displacement : Option String
  wet_weight_kg : Option ℚ
  wet_weight_lb : Option ℚ
  dry_weight_kg : Option ℚ
  dry_weight_lb : Option ℚ
  power_weight_ratio_hp_kg : Option ℚ
  url : String
deriving Repr, DecidableEq

/-- The year step of `retrieve_page`: `if year is not None: year = int(year)`;
a non-numeric located year raises ValueError. -/
def yearOf : Option String → Except String (Option ℤ)
  | none => .ok none
  | some s =>
    match pyInt s.data with
    | some n => .ok (some n)
    | none => .error ("ValueError: int")

/-- `retrieve_page` of src/main.py (after the external fetch and parse):
field lookups and conversions in source evaluation order; any uncaught
exception aborts the record. -/
def retrieve_page (soup : Node) (url : String) : Except String Record :=
  match retrieve_entry soup modelKey with
  | .error e => .error e
  | .ok name =>
  match parse_power soup with
  | .error e => .error e
  | .ok (power_hp, power_kw) =>
  match parse_weight soup wetKey with
  | .error e => .error e
  | .ok (wet_weight_kg, wet_weight_lb) =>
  match parse_weight soup dryKey with
  | .error e => .error e
  | .ok (dry_weight_kg, dry_weight_lb) =>
  match retrieve_entry soup yearKey with
  | .error e => .error e
  | .ok yearEntry =>
  match yearOf yearEntry with
  | .error e => .error e
  | .ok year =>
  match retrieve_entry soup torqueKey with
  | .error e => .error e
  | .ok torque =>
  match retrieve_entry soup displacementKey with
  | .error e => .error e
  | .ok displacement =>
  match parse_power_weight_ratio soup power_hp wet_weight_kg dry_weight_kg with
  | .error e => .error e
  | .ok ratio =>
    .ok { model := name, year := year, power_hp := power_hp, power_kw := power_kw,
          torque := torque, displacement := displacement,
          wet_weight_kg := wet_weight_kg, wet_weight_lb := wet_weight_lb,
          dry_weight_kg := dry_weight_kg, dry_weight_lb := dry_weight_lb,
          power_weight_ratio_hp_kg := ratio, url := url }

/-! ## The page-list cache (`parse_sitemap`) -/

/-- Outcome of `parse_sitemap`: the returned URL list, the cache-file
content after the call, and whether the network was consulted. -/
structure SitemapOut where
  urls : List String
  cacheAfter : String
  usedNetwork : Bool
deriving Repr, DecidableEq

/-- `parse_sitemap` of src/main.py.  `cacheFile` is the content of
`url.list` if it exists; `network` is the sequence of `<loc>` strings the
sitemap fetch would yield.  A present cache is read and split into lines
with no fetch; otherwise the fetched list is joined with newlines,
persisted, and returned. -/
def parse_sitemap (cacheFile : Option String) (network : List String) : SitemapOut :=
  match cacheFile with
  | some content => { urls := pySplitlines content, cacheAfter := content, usedNetwork := false }
  | none => { urls := network, cacheAfter := joinNl network, usedNetwork := true }

/-! ## Concrete documents (page shapes observed by the scraper) -/

/-- One spec-table row: an emphasised label cell and a value cell. -/
def row (label value : String) : Node :=
  .elem ("tr") [.elem ("td") [.elem ("b") [.text label]], .elem ("td") [.text value]]

def mkDoc (rows : List Node) : Node := .elem ("[document]") [.elem ("table") rows]

/-- The emphasis-label shape: `<tr><td><b>label</b></td><td>value</td></tr>`. -/
def embShape (label value : String) : Node := mkDoc [row label value]

/-- The hyperlink-label shape: the label text sits one level deeper inside
an `<a>` (the `<b>` wrapper also holds stray whitespace, so its `.string`
is `None` and the `<a>` is the element found). -/
def linkShape (label value : String) : Node :=
  mkDoc [.elem ("tr") [.elem ("td") [.elem ("b") [.text (" "), .elem ("a") [.text label]]],
                     .elem ("td") [.text value]]]

/-- A fully populated specification page. -/
def docFull : Node :=
  mkDoc [row ("Model") "Honda CB500",
         row ("Power output") "100.5 HP (74.9  kW))",
         row ("Weight incl. oil") "200 kg (441 pounds)",
         row ("Dry weight") "180 kg (397 pounds)",
         row ("Year model") "2003",
         row ("Torque") "47 Nm",
         row ("Displacement") "499 ccm",
         row ("Power/weight") "0.7 HP/kg"]

/-- A page whose only entry is a numeric year. -/
def docYear : Node := mkDoc [row ("Year model") "2003"]

/-- A page whose located year text is not numeric. -/
def docC1 : Node := mkDoc [row ("Year model") "N/A"]

/-- A page whose only entry is a power figure. -/
def docPower : Node := mkDoc [row ("Power output") "100.5 HP (74.9  kW))"]

/-- A page whose only entry is an explicit power/weight ratio. -/
def docRatio : Node := mkDoc [row ("Power/weight") "0.7 HP/kg"]

/-- A page with no entries at all. -/
def docEmpty : Node := .elem ("[document]") []

/-- Characters a numeral capture may contain: digits, comma separators, dot. -/
def numChar (c : Char) : Bool := c.isDigit || c == ',' || c == '.'

/-- The `Chars`-level counterpart of `joinNl`, used to state the cache
round-trip. -/
def joinC : List Chars → Chars
  | [] => []
  | [u] => u
  | u :: rest => u ++ '\n' :: joinC rest

/-- The record extracted from `docPower`. -/
def powerRec : Record :=
  { model := none, year := none, power_hp := some (201/2 : ℚ), power_kw := some (749/10 : ℚ),
    torque := none, displacement := none, wet_weight_kg := none, wet_weight_lb := none,
    dry_weight_kg := none, dry_weight_lb := none, power_weight_ratio_hp_kg := none,
    url := "u" }

/-- The record extracted from `docYear`. -/
def yearRec : Record :=
  { model := none, year := some 2003, power_hp := none, power_kw := none,
    torque := none, displacement := none, wet_weight_kg := none, wet_weight_lb := none,
    dry_weight_kg := none, dry_weight_lb := none, power_weight_ratio_hp_kg := none,
    url := "u" }

/-- Whether a computation produced a value, i.e. no exception escaped and a
record was emitted. -/
def emitted {α : Type} (r : Except String α) : Bool :=
  match r with
  | .ok _ => true
  | .error _ => false

deriving instance DecidableEq for Except

unseal Rat.mul Rat.inv Rat.add Rat.sub

/-! ## Lemmas and claim theorems -/

lemma descRange_succ (n : ℕ) : descRange (n + 1) = (n + 1) :: descRange n := by
  simp [descRange, List.range_succ]

lemma findSome?_descRange {α : Type} (f : ℕ → Option α) (v : α) :
    ∀ (N m₀ : ℕ), m₀ ≤ N → f m₀ = some v → (∀ m, m₀ < m → f m = none) →
    (descRange N).findSome? f = some v := by
  intro N
  induction N with
  | zero =>
    intro m₀ h0 hv _
    have : m₀ = 0 := Nat.le_zero.mp h0
    subst this
    simp [descRange, List.findSome?, hv]
  | succ n ih =>
    intro m₀ hle hv hnone
    rw [descRange_succ, List.findSome?_cons]
    rcases Nat.lt_or_ge m₀ (n + 1) with h | h
    · rw [hnone (n + 1) h]
      exact ih m₀ (Nat.lt_succ_iff.mp h) hv hnone
    · have : m₀ = n + 1 := Nat.le_antisymm hle h
      subst this
      rw [hv]

lemma greedyTail_exact (suf g2 : Chars) (hne : g2 ≠ []) (hnl : noNl g2 = true)
    (hsuf : suf ≠ []) : greedyTail suf (g2 ++ suf) = some g2 := by
  unfold greedyTail
  apply findSome?_descRange _ g2 _ g2.length
  · simp
  · rw [if_pos]
    · rw [List.take_left]
    · refine ⟨List.length_pos.mpr hne, ?_, ?_⟩
      · rw [List.take_left]; exact hnl
      · rw [List.drop_left]
        simp [List.isPrefixOf_iff_prefix]
  · intro m hm
    rw [if_neg]
    rintro ⟨-, -, h3⟩
    rw [List.isPrefixOf_iff_prefix] at h3
    have hlen := h3.length_le
    have hpos : 0 < suf.length := List.length_pos.mpr hsuf
    simp [List.length_drop, List.length_append] at hlen
    omega

lemma matchTwoFrom_exact (mid suf g1 g2 : Chars)
    (hg1 : g1 ≠ []) (hg2 : g2 ≠ []) (hnl1 : noNl g1 = true) (hnl2 : noNl g2 = true)
    (hsuf : suf ≠ [])
    (huniq : ∀ m, mid.isPrefixOf ((g1 ++ (mid ++ (g2 ++ suf))).drop m) = true →
      m = g1.length) :
    matchTwoFrom mid suf (g1 ++ (mid ++ (g2 ++ suf))) 0 = some (g1, g2) := by
  unfold matchTwoFrom
  simp only [List.drop_zero]
  apply findSome?_descRange _ (g1, g2) _ g1.length
  · simp
  · rw [if_pos]
    · have hdrop : (g1 ++ (mid ++ (g2 ++ suf))).drop (g1.length + mid.length) = g2 ++ suf := by
        rw [show g1 ++ (mid ++ (g2 ++ suf)) = (g1 ++ mid) ++ (g2 ++ suf) by
              simp [List.append_assoc],
            ← List.length_append, List.drop_left]
      rw [hdrop, greedyTail_exact suf g2 hg2 hnl2 hsuf, List.take_left]
    · refine ⟨List.length_pos.mpr hg1, ?_, ?_⟩
      · rw [List.take_left]; exact hnl1
      · rw [List.drop_left]
        simp [List.isPrefixOf_iff_prefix]
  · intro m hm
    rw [if_neg]
    rintro ⟨-, -, h3⟩
    exact absurd (huniq m h3) (by omega)

lemma search2_exact (mid suf g1 g2 : Chars)
    (hg1 : g1 ≠ []) (hg2 : g2 ≠ []) (hnl1 : noNl g1 = true) (hnl2 : noNl g2 = true)
    (hsuf : suf ≠ [])
    (huniq : ∀ m, mid.isPrefixOf ((g1 ++ (mid ++ (g2 ++ suf))).drop m) = true →
      m = g1.length) :
    search2 mid suf (g1 ++ (mid ++ (g2 ++ suf))) = some (g1, g2) := by
  unfold search2
  rw [List.range_succ_eq_map, List.findSome?_cons,
      matchTwoFrom_exact mid suf g1 g2 hg1 hg2 hnl1 hnl2 hsuf huniq]

lemma occurrence_unique (g1 mid rest2 : Chars) (c : Char)
    (hc1 : mid[1]? = some c)
    (hcm : ∀ j, mid[j]? = some c → j = 1)
    (hg1 : c ∉ g1) (hrest : c ∉ rest2) :
    ∀ m, mid.isPrefixOf ((g1 ++ (mid ++ rest2)).drop m) = true → m = g1.length := by
  intro m h
  rw [List.isPrefixOf_iff_prefix] at h
  obtain ⟨t, ht⟩ := h
  have hlen1 : 1 < mid.length := (List.getElem?_eq_some_iff.mp hc1).1
  have h1 : (g1 ++ (mid ++ rest2))[m + 1]? = some c := by
    rw [show m + 1 = m + 1 from rfl, ← List.getElem?_drop, ← ht,
        List.getElem?_append_left hlen1, hc1]
  rcases Nat.lt_or_ge (m + 1) g1.length with hlt | hge
  · rw [List.getElem?_append_left hlt] at h1
    exact absurd (List.getElem?_mem h1) hg1
  · rw [List.getElem?_append_right hge] at h1
    rcases Nat.lt_or_ge (m + 1 - g1.length) mid.length with hlt2 | hge2
    · rw [List.getElem?_append_left hlt2] at h1
      have := hcm _ h1
      omega
    · rw [List.getElem?_append_right hge2] at h1
      exact absurd (List.getElem?_mem h1) hrest


lemma notMem_of_numChar {g : Chars} {c : Char} (hg : ∀ a ∈ g, numChar a = true)
    (hc : numChar c = false) : c ∉ g := by
  intro hmem
  rw [hg c hmem] at hc
  exact Bool.noConfusion hc

lemma noNl_of_numChar {g : Chars} (h : ∀ a ∈ g, numChar a = true) : noNl g = true := by
  rw [noNl, List.all_eq_true]
  intro c hc
  simp only [decide_eq_true_eq]
  intro heq
  subst heq
  exact absurd (h _ hc) (by decide)

lemma powMid_H_unique : ∀ j, powMid[j]? = some 'H' → j = 1 := by
  intro j hj
  have hlen : powMid.length = 5 := by decide
  have hjlt : j < 5 := by
    by_contra hh
    rw [List.getElem?_eq_none (by rw [hlen]; omega)] at hj
    exact Option.noConfusion hj
  interval_cases j
  · exact absurd hj (by decide)
  · rfl
  · exact absurd hj (by decide)
  · exact absurd hj (by decide)
  · exact absurd hj (by decide)

lemma wgtMid_k_unique : ∀ j, wgtMid[j]? = some 'k' → j = 1 := by
  intro j hj
  have hlen : wgtMid.length = 5 := by decide
  have hjlt : j < 5 := by
    by_contra hh
    rw [List.getElem?_eq_none (by rw [hlen]; omega)] at hj
    exact Option.noConfusion hj
  interval_cases j
  · exact absurd hj (by decide)
  · rfl
  · exact absurd hj (by decide)
  · exact absurd hj (by decide)
  · exact absurd hj (by decide)

lemma power_uniq (g1 g2 : Chars)
    (hc1 : ∀ a ∈ g1, numChar a = true) (hc2 : ∀ a ∈ g2, numChar a = true) :
    ∀ m, powMid.isPrefixOf ((g1 ++ (powMid ++ (g2 ++ powSuf))).drop m) = true →
      m = g1.length := by
  apply occurrence_unique g1 powMid (g2 ++ powSuf) 'H'
  · decide
  · exact powMid_H_unique
  · exact notMem_of_numChar hc1 (by decide)
  · rw [List.mem_append]
    rintro (h | h)
    · exact notMem_of_numChar hc2 (by decide) h
    · exact absurd h (by decide)

lemma weight_uniq (g1 g2 : Chars)
    (hc1 : ∀ a ∈ g1, numChar a = true) (hc2 : ∀ a ∈ g2, numChar a = true) :
    ∀ m, wgtMid.isPrefixOf ((g1 ++ (wgtMid ++ (g2 ++ wgtSuf))).drop m) = true →
      m = g1.length := by
  apply occurrence_unique g1 wgtMid (g2 ++ wgtSuf) 'k'
  · decide
  · exact wgtMid_k_unique
  · exact notMem_of_numChar hc1 (by decide)
  · rw [List.mem_append]
    rintro (h | h)
    · exact notMem_of_numChar hc2 (by decide) h
    · exact absurd h (by decide)

theorem parsePowerText_numeral (g1 g2 : Chars) (v1 v2 : ℚ)
    (hne1 : g1 ≠ []) (hne2 : g2 ≠ [])
    (hc1 : ∀ a ∈ g1, numChar a = true) (hc2 : ∀ a ∈ g2, numChar a = true)
    (hf1 : pyFloat (stripCommas g1) = some v1) (hf2 : pyFloat (stripCommas g2) = some v2) :
    parsePowerText (String.mk (g1 ++ (powMid ++ (g2 ++ powSuf)))) = .ok (some v1, some v2) := by
  unfold parsePowerText
  rw [show (String.mk (g1 ++ (powMid ++ (g2 ++ powSuf)))).data
        = g1 ++ (powMid ++ (g2 ++ powSuf)) from rfl,
      search2_exact powMid powSuf g1 g2 hne1 hne2 (noNl_of_numChar hc1)
        (noNl_of_numChar hc2) (by decide) (power_uniq g1 g2 hc1 hc2)]
  simp [hf1, hf2]

theorem parseWeightText_numeral (g1 g2 : Chars) (v1 v2 : ℚ)
    (hne1 : g1 ≠ []) (hne2 : g2 ≠ [])
    (hc1 : ∀ a ∈ g1, numChar a = true) (hc2 : ∀ a ∈ g2, numChar a = true)
    (hf1 : pyFloat (stripCommas g1) = some v1) (hf2 : pyFloat (stripCommas g2) = some v2) :
    parseWeightText (String.mk (g1 ++ (wgtMid ++ (g2 ++ wgtSuf)))) = .ok (some v1, some v2) := by
  unfold parseWeightText
  rw [show (String.mk (g1 ++ (wgtMid ++ (g2 ++ wgtSuf)))).data
        = g1 ++ (wgtMid ++ (g2 ++ wgtSuf)) from rfl,
      search2_exact wgtMid wgtSuf g1 g2 hne1 hne2 (noNl_of_numChar hc1)
        (noNl_of_numChar hc2) (by decide) (weight_uniq g1 g2 hc1 hc2)]
  simp [hf1, hf2]

lemma retrieve_page_ok {soup : Node} {url : String} {r : Record}
    (h : retrieve_page soup url = .ok r) :
    retrieve_entry soup modelKey = .ok r.model ∧
    parse_power soup = .ok (r.power_hp, r.power_kw) ∧
    parse_weight soup wetKey = .ok (r.wet_weight_kg, r.wet_weight_lb) ∧
    parse_weight soup dryKey = .ok (r.dry_weight_kg, r.dry_weight_lb) ∧
    (∃ ys, retrieve_entry soup yearKey = .ok ys ∧ yearOf ys = .ok r.year) ∧
    retrieve_entry soup torqueKey = .ok r.torque ∧
    retrieve_entry soup displacementKey = .ok r.displacement ∧
    parse_power_weight_ratio soup r.power_hp r.wet_weight_kg r.dry_weight_kg
      = .ok r.power_weight_ratio_hp_kg ∧
    r.url = url := by
  unfold retrieve_page at h
  cases h1 : retrieve_entry soup modelKey with
  | error e => rw [h1] at h; exact Except.noConfusion h
  | ok name =>
  rw [h1] at h
  dsimp only [] at h
  cases h2 : parse_power soup with
  | error e => rw [h2] at h; exact Except.noConfusion h
  | ok pp =>
  rw [h2] at h
  dsimp only [] at h
  obtain ⟨php, pkw⟩ := pp
  cases h3 : parse_weight soup wetKey with
  | error e => rw [h3] at h; exact Except.noConfusion h
  | ok ww =>
  rw [h3] at h
  dsimp only [] at h
  obtain ⟨wwk, wwl⟩ := ww
  cases h4 : parse_weight soup dryKey with
  | error e => rw [h4] at h; exact Except.noConfusion h
  | ok dw =>
  rw [h4] at h
  dsimp only [] at h
  obtain ⟨dwk, dwl⟩ := dw
  cases h5 : retrieve_entry soup yearKey with
  | error e => rw [h5] at h; exact Except.noConfusion h
  | ok yearEntry =>
  rw [h5] at h
  dsimp only [] at h
  cases h6 : yearOf yearEntry with
  | error e => rw [h6] at h; exact Except.noConfusion h
  | ok year =>
  rw [h6] at h
  dsimp only [] at h
  cases h7 : retrieve_entry soup torqueKey with
  | error e => rw [h7] at h; exact Except.noConfusion h
  | ok torque =>
  rw [h7] at h
  dsimp only [] at h
  cases h8 : retrieve_entry soup displacementKey with
  | error e => rw [h8] at h; exact Except.noConfusion h
  | ok displacement =>
  rw [h8] at h
  dsimp only [] at h
  cases h9 : parse_power_weight_ratio soup php wwk dwk with
  | error e => rw [h9] at h; exact Except.noConfusion h
  | ok ratio =>
  rw [h9] at h
  dsimp only [] at h
  injection h with h
  subst h
  refine ⟨?_, ?_, ?_, ?_, ⟨yearEntry, ?_, ?_⟩, ?_, ?_, ?_, ?_⟩ <;>
    first
    | rfl
    | exact h5
    | exact h6
    | exact h9

lemma parsePowerText_conull (entry : String) (t : Option ℚ × Option ℚ)
    (h : parsePowerText entry = .ok t) : t.1.isSome = t.2.isSome := by
  unfold parsePowerText at h
  cases hs : search2 powMid powSuf entry.data with
  | none =>
    rw [hs] at h
    dsimp only [] at h
    injection h with h
    subst h
    rfl
  | some g =>
    rw [hs] at h
    obtain ⟨g1, g2⟩ := g
    dsimp only [] at h
    cases hf1 : pyFloat (stripCommas g1) with
    | none => rw [hf1] at h; exact Except.noConfusion h
    | some a =>
    rw [hf1] at h
    dsimp only [] at h
    cases hf2 : pyFloat (stripCommas g2) with
    | none => rw [hf2] at h; exact Except.noConfusion h
    | some b =>
    rw [hf2] at h
    dsimp only [] at h
    injection h with h
    subst h
    rfl

lemma parseWeightText_conull (entry : String) (t : Option ℚ × Option ℚ)
    (h : parseWeightText entry = .ok t) : t.1.isSome = t.2.isSome := by
  unfold parseWeightText at h
  cases hs : search2 wgtMid wgtSuf entry.data with
  | none =>
    rw [hs] at h
    dsimp only [] at h
    injection h with h
    subst h
    rfl
  | some g =>
    rw [hs] at h
    obtain ⟨g1, g2⟩ := g
    dsimp only [] at h
    cases hf1 : pyFloat (stripCommas g1) with
    | none => rw [hf1] at h; exact Except.noConfusion h
    | some a =>
    rw [hf1] at h
    dsimp only [] at h
    cases hf2 : pyFloat (stripCommas g2) with
    | none => rw [hf2] at h; exact Except.noConfusion h
    | some b =>
    rw [hf2] at h
    dsimp only [] at h
    injection h with h
    subst h
    rfl

lemma parse_power_conull (soup : Node) (t : Option ℚ × Option ℚ)
    (h : parse_power soup = .ok t) : t.1.isSome = t.2.isSome := by
  unfold parse_power at h
  cases he : retrieve_entry soup powerKey with
  | error e => rw [he] at h; exact Except.noConfusion h
  | ok o =>
    rw [he] at h
    cases o with
    | none =>
      dsimp only [] at h
      injection h with h
      subst h
      rfl
    | some entry =>
      dsimp only [] at h
      exact parsePowerText_conull entry t h

lemma parse_weight_conull (soup : Node) (key : String → Bool) (t : Option ℚ × Option ℚ)
    (h : parse_weight soup key = .ok t) : t.1.isSome = t.2.isSome := by
  unfold parse_weight at h
  cases he : retrieve_entry soup key with
  | error e => rw [he] at h; exact Except.noConfusion h
  | ok o =>
    rw [he] at h
    cases o with
    | none =>
      dsimp only [] at h
      injection h with h
      subst h
      rfl
    | some entry =>
      dsimp only [] at h
      exact parseWeightText_conull entry t h


lemma splitGo_nil (acc : Chars) :
    splitGo [] acc false = if acc.isEmpty then [] else [acc.reverse] := rfl

lemma splitGo_cons_clean (c : Char) (rest acc : Chars) (h : lineBreakChar c = false) :
    splitGo (c :: rest) acc false = splitGo rest (c :: acc) false := by
  rw [splitGo]
  rw [if_neg, if_neg]
  · rw [h]; exact Bool.noConfusion
  · simp

lemma splitGo_cons_nl (rest acc : Chars) :
    splitGo ('\n' :: rest) acc false = acc.reverse :: splitGo rest [] false := by
  rw [splitGo]
  rw [if_neg (by simp), if_pos (by decide)]
  rfl

lemma splitGo_append_clean (u : Chars) (hclean : ∀ c ∈ u, lineBreakChar c = false) :
    ∀ rest acc, splitGo (u ++ rest) acc false = splitGo rest (u.reverse ++ acc) false := by
  induction u with
  | nil => intro rest acc; simp
  | cons c u ih =>
    intro rest acc
    have hc := hclean c (List.mem_cons_self c u)
    have hcl : ∀ a ∈ u, lineBreakChar a = false := fun a ha =>
      hclean a (List.mem_cons_of_mem c ha)
    rw [List.cons_append, splitGo_cons_clean c (u ++ rest) acc hc, ih hcl rest (c :: acc)]
    congr 1
    simp

lemma joinNl_data : ∀ (l : List String), (joinNl l).data = joinC (l.map String.data) := by
  intro l
  induction l with
  | nil => rfl
  | cons u rest ih =>
    cases rest with
    | nil => rfl
    | cons v rest2 =>
      show (u ++ "\n" ++ joinNl (v :: rest2)).data = u.data ++ '\n' :: joinC ((v :: rest2).map String.data)
      rw [String.data_append, String.data_append, ← ih, List.append_assoc]
      rfl

lemma splitlinesC_joinC : ∀ (ls : List Chars),
    (∀ u ∈ ls, u ≠ [] ∧ ∀ c ∈ u, lineBreakChar c = false) →
    splitGo (joinC ls) [] false = ls := by
  intro ls
  induction ls with
  | nil =>
    intro _
    rw [show joinC [] = ([] : Chars) from rfl, splitGo_nil]
    rfl
  | cons u rest ih =>
    intro h
    obtain ⟨hne, hclean⟩ := h u (List.mem_cons_self u rest)
    cases rest with
    | nil =>
      show splitGo u [] false = [u]
      have hstep := splitGo_append_clean u hclean [] []
      rw [List.append_nil] at hstep
      rw [hstep, List.append_nil, splitGo_nil, if_neg, List.reverse_reverse]
      simp [hne]
    | cons v rest2 =>
      show splitGo (u ++ '\n' :: joinC (v :: rest2)) [] false = u :: v :: rest2
      rw [splitGo_append_clean u hclean _ [], splitGo_cons_nl,
          ih (fun x hx => h x (List.mem_cons_of_mem u hx)), List.append_nil,
          List.reverse_reverse]

lemma ratio_no_explicit (soup : Node) (hx : retrieve_entry soup ratioKey = .ok none)
    (op ow od : Option ℚ) :
    parse_power_weight_ratio soup op ow od =
      .ok (if pyTruthy op = true then
             if pyTruthy ow = true then some (op.getD 0 / ow.getD 0)
             else if pyTruthy od = true then some (op.getD 0 / od.getD 0)
             else none
           else none) := by
  unfold parse_power_weight_ratio
  rw [hx]
  dsimp only []
  split_ifs <;> rfl

/-- C2: derivation precedence of the power-to-weight ratio.  When no explicit
ratio entry is located, a truthy power with a truthy wet weight derives
`power_hp / wet_weight_kg` whatever the dry weight is; with wet weight absent
a truthy dry weight derives `power_hp / dry_weight_kg`; otherwise the ratio
is absent.  In particular power 100, wet 200, dry 180 gives 1/2 — wet weight
wins over dry.  Presence is Python truthiness (claim C10 covers zero). -/
theorem claim_C2 (soup : Node) (hx : retrieve_entry soup ratioKey = .ok none) :
    (∀ p w : ℚ, ∀ od : Option ℚ, p ≠ 0 → w ≠ 0 →
        parse_power_weight_ratio soup (some p) (some w) od = .ok (some (p / w))) ∧
    (∀ p d : ℚ, p ≠ 0 → d ≠ 0 →
        parse_power_weight_ratio soup (some p) none (some d) = .ok (some (p / d))) ∧
    (∀ op ow od : Option ℚ,
        pyTruthy op = false ∨ (pyTruthy ow = false ∧ pyTruthy od = false) →
        parse_power_weight_ratio soup op ow od = .ok none) ∧
    parse_power_weight_ratio soup (some 100) (some 200) (some 180) = .ok (some (1/2 : ℚ)) := by
  refine ⟨?_, ?_, ?_, ?_⟩
  · intro p w od hp hw
    rw [ratio_no_explicit soup hx]
    simp [pyTruthy, hp, hw]
  · intro p d hp hd
    rw [ratio_no_explicit soup hx]
    simp [pyTruthy, hp, hd]
  · intro op ow od h
    rw [ratio_no_explicit soup hx]
    rcases h with h | ⟨h1, h2⟩
    · simp [h]
    · simp [h1, h2]
  · rw [ratio_no_explicit soup hx]
    decide

/-- C3: explicit wins.  If a ratio entry is located and its text parses
(regex capture plus float conversion succeed), the resolver returns exactly
that parsed value, for every combination of power, wet and dry weights. -/
theorem claim_C3 (soup : Node) (e : String) (g : Chars) (v : ℚ)
    (hloc : retrieve_entry soup ratioKey = .ok (some e))
    (hsearch : search1 ratSuf e.data = some g)
    (hconv : pyFloat (stripCommas g) = some v) :
    ∀ op ow od : Option ℚ, parse_power_weight_ratio soup op ow od = .ok (some v) := by
  intro op ow od
  unfold parse_power_weight_ratio
  rw [hloc]
  dsimp only []
  unfold parseRatioText
  rw [hsearch]
  dsimp only []
  rw [hconv]

/-- C10: the resolver never divides by zero.  A weight of 0.0 behaves under
the truthiness guards exactly like an absent weight, a power of 0.0 yields an
absent ratio rather than a derived 0.0, and every derived value p / den has a
denominator that was a nonzero wet or dry weight. -/
theorem claim_C10 (soup : Node) (op ow od : Option ℚ) :
    (parse_power_weight_ratio soup op (some 0) od = parse_power_weight_ratio soup op none od) ∧
    (parse_power_weight_ratio soup op ow (some 0) = parse_power_weight_ratio soup op ow none) ∧
    (parse_power_weight_ratio soup (some 0) ow od = parse_power_weight_ratio soup none ow od) ∧
    (retrieve_entry soup ratioKey = .ok none →
        parse_power_weight_ratio soup (some 0) ow od = .ok none) ∧
    (retrieve_entry soup ratioKey = .ok none →
        ∀ v : ℚ, parse_power_weight_ratio soup op ow od = .ok (some v) →
        ∃ p den : ℚ, op = some p ∧ den ≠ 0 ∧ v = p / den ∧
          (ow = some den ∨ od = some den)) := by
  cases hx : retrieve_entry soup ratioKey with
  | error e =>
    refine ⟨?_, ?_, ?_, ?_, ?_⟩ <;>
      first
      | (intro h; exact Except.noConfusion h)
      | (unfold parse_power_weight_ratio; rw [hx])
  | ok o =>
    cases o with
    | some e =>
      refine ⟨?_, ?_, ?_, ?_, ?_⟩
      · unfold parse_power_weight_ratio; rw [hx]
      · unfold parse_power_weight_ratio; rw [hx]
      · unfold parse_power_weight_ratio; rw [hx]
      · intro h; exact Option.noConfusion (Except.ok.inj h)
      · intro h; exact Option.noConfusion (Except.ok.inj h)
    | none =>
      refine ⟨?_, ?_, ?_, ?_, ?_⟩
      · rw [ratio_no_explicit soup hx, ratio_no_explicit soup hx]
        rfl
      · rw [ratio_no_explicit soup hx, ratio_no_explicit soup hx]
        rfl
      · rw [ratio_no_explicit soup hx, ratio_no_explicit soup hx]
        rfl
      · intro _
        rw [ratio_no_explicit soup hx]
        rfl
      · intro _ v hv
        rw [ratio_no_explicit soup hx] at hv
        injection hv with hv
        cases op with
        | none => exact absurd hv (by simp [pyTruthy])
        | some p =>
          by_cases hp : p = 0
          · subst hp
            exact absurd hv (by simp [pyTruthy])
          · rw [if_pos (by simp [pyTruthy, hp])] at hv
            cases ow with
            | some w =>
              by_cases hw : w = 0
              · subst hw
                rw [if_neg (by simp [pyTruthy])] at hv
                cases od with
                | none => exact absurd hv (by simp [pyTruthy])
                | some d =>
                  by_cases hd : d = 0
                  · subst hd
                    exact absurd hv (by simp [pyTruthy])
                  · rw [if_pos (by simp [pyTruthy, hd])] at hv
                    injection hv with hv
                    exact ⟨p, d, rfl, hd, hv.symm, Or.inr rfl⟩
              · rw [if_pos (by simp [pyTruthy, hw])] at hv
                injection hv with hv
                exact ⟨p, w, rfl, hw, hv.symm, Or.inl rfl⟩
            | none =>
              rw [if_neg (by simp [pyTruthy])] at hv
              cases od with
              | none => exact absurd hv (by simp [pyTruthy])
              | some d =>
                by_cases hd : d = 0
                · subst hd
                  exact absurd hv (by simp [pyTruthy])
                · rw [if_pos (by simp [pyTruthy, hd])] at hv
                  injection hv with hv
                  exact ⟨p, d, rfl, hd, hv.symm, Or.inr rfl⟩

/-- C1 (amended): failures are local only up to regex misses.  A label-lookup
miss or a regex non-match leaves just that field absent (no exception, record
still emitted, sibling fields from their own parses), but a matched capture
that fails float conversion, or a located year text that is not numeric,
raises a ValueError that aborts the record: no record is emitted. -/
theorem claim_C1 :
    (∀ soup : Node, ∀ e : String, retrieve_entry soup powerKey = .ok (some e) →
        search2 powMid powSuf e.data = none → parse_power soup = .ok (none, none)) ∧
    (∀ soup : Node, ∀ url : String, ∀ r : Record, retrieve_page soup url = .ok r →
        parse_power soup = .ok (r.power_hp, r.power_kw) ∧
        parse_weight soup wetKey = .ok (r.wet_weight_kg, r.wet_weight_lb) ∧
        parse_weight soup dryKey = .ok (r.dry_weight_kg, r.dry_weight_lb) ∧
        retrieve_entry soup modelKey = .ok r.model ∧
        r.url = url) ∧
    (∀ soup : Node, ∀ url : String, ∀ nm : Option String,
        ∀ pp ww dw : Option ℚ × Option ℚ, ∀ s : String,
        retrieve_entry soup modelKey = .ok nm →
        parse_power soup = .ok pp →
        parse_weight soup wetKey = .ok ww →
        parse_weight soup dryKey = .ok dw →
        retrieve_entry soup yearKey = .ok (some s) →
        pyInt s.data = none →
        retrieve_page soup url = .error ("ValueError: int")) ∧
    (∀ e : String, ∀ g1 g2 : Chars,
        search2 powMid powSuf e.data = some (g1, g2) →
        pyFloat (stripCommas g1) = none →
        parsePowerText e = .error ("ValueError: float")) := by
  refine ⟨?_, ?_, ?_, ?_⟩
  · intro soup e hloc hmiss
    unfold parse_power
    rw [hloc]
    dsimp only []
    unfold parsePowerText
    rw [hmiss]
  · intro soup url r h
    obtain ⟨h1, h2, h3, h4, -, -, -, -, h9⟩ := retrieve_page_ok h
    exact ⟨h2, h3, h4, h1, h9⟩
  · intro soup url nm pp ww dw s h1 h2 h3 h4 h5 h6
    obtain ⟨php, pkw⟩ := pp
    obtain ⟨wwk, wwl⟩ := ww
    obtain ⟨dwk, dwl⟩ := dw
    unfold retrieve_page
    rw [h1]
    dsimp only []
    rw [h2]
    dsimp only []
    rw [h3]
    dsimp only []
    rw [h4]
    dsimp only []
    rw [h5]
    dsimp only []
    unfold yearOf
    dsimp only []
    rw [h6]
  · intro e g1 g2 hs hf
    unfold parsePowerText
    rw [hs]
    dsimp only []
    rw [hf]

/-- C4 (amended): the power parser accepts `<num> HP (<num>  kW))` — two
spaces before `kW` and a doubled closing parenthesis, as produced by the
source pages — returning both numerals comma-stripped and float-converted;
any non-matching text (including the claimed looser shape
`<num> HP (<num> kW)`) yields both halves absent without an exception. -/
theorem claim_C4 :
    (∀ g1 g2 : Chars, ∀ v1 v2 : ℚ, g1 ≠ [] → g2 ≠ [] →
        (∀ a ∈ g1, numChar a = true) → (∀ a ∈ g2, numChar a = true) →
        pyFloat (stripCommas g1) = some v1 → pyFloat (stripCommas g2) = some v2 →
        parsePowerText (String.mk (g1 ++ (powMid ++ (g2 ++ powSuf)))) =
          .ok (some v1, some v2)) ∧
    (∀ e : String, search2 powMid powSuf e.data = none →
        parsePowerText e = .ok (none, none)) ∧
    parsePowerText ("N/A") = .ok (none, none) ∧
    parsePowerText ("100.5 HP (74.9  kW))") = .ok (some (201/2 : ℚ), some (749/10 : ℚ)) := by
  refine ⟨parsePowerText_numeral, ?_, by decide, by decide⟩
  intro e h
  unfold parsePowerText
  rw [h]

/-- C4 counterexample: `100 HP (74 kW)` is of the claimed form
`<num> HP (<num> kW)` yet the parser returns both halves absent, not
`(100.0, 74.0)`, because the actual regex demands `  kW))`. -/
theorem claim_C4_cex :
    parsePowerText ("100 HP (74 kW)") = .ok (none, none) ∧
    parsePowerText ("100 HP (74 kW)") ≠ .ok (some (100 : ℚ), some (74 : ℚ)) := by
  decide

/-- C4 witness: the numeral clause at `100.5` and `74.9`. -/
theorem claim_C4_wit :
    parsePowerText (String.mk ((("100.5").data) ++ (powMid ++ ((("74.9").data) ++ powSuf)))) =
      .ok (some (201/2 : ℚ), some (749/10 : ℚ)) :=
  claim_C4.1 (("100.5").data) (("74.9").data) (201/2 : ℚ) (749/10 : ℚ)
    (by decide) (by decide) (by decide) (by decide) (by decide) (by decide)

/-- C8: thousands separators in the weight parser.  Every value-text
`<num> kg (<num> pounds)` with numeral captures has commas stripped before
float conversion; in particular `1,234 kg (2,721 pounds)` parses to
`(1234.0, 2721.0)`. -/
theorem claim_C8 :
    (∀ g1 g2 : Chars, ∀ v1 v2 : ℚ, g1 ≠ [] → g2 ≠ [] →
        (∀ a ∈ g1, numChar a = true) → (∀ a ∈ g2, numChar a = true) →
        pyFloat (stripCommas g1) = some v1 → pyFloat (stripCommas g2) = some v2 →
        parseWeightText (String.mk (g1 ++ (wgtMid ++ (g2 ++ wgtSuf)))) =
          .ok (some v1, some v2)) ∧
    parseWeightText ("1,234 kg (2,721 pounds)") = .ok (some (1234 : ℚ), some (2721 : ℚ)) :=
  ⟨parseWeightText_numeral, by decide⟩

/-- C8 witness: the numeral clause at `1,234` and `2,721`. -/
theorem claim_C8_wit :
    pyFloat (stripCommas (("1,234").data)) = some (1234 : ℚ) ∧
    pyFloat (stripCommas (("2,721").data)) = some (2721 : ℚ) ∧
    parseWeightText (String.mk ((("1,234").data) ++ (wgtMid ++ ((("2,721").data) ++ wgtSuf)))) =
      .ok (some (1234 : ℚ), some (2721 : ℚ)) :=
  ⟨by decide, by decide,
    claim_C8.1 (("1,234").data) (("2,721").data) (1234 : ℚ) (2721 : ℚ)
      (by decide) (by decide) (by decide) (by decide) (by decide) (by decide)⟩

/-- C5: co-null invariant.  Every record emitted by `retrieve_page` has each
numeric pair (power hp/kw, wet kg/lb, dry kg/lb) fully populated or fully
absent, never one side only. -/
theorem claim_C5 (soup : Node) (url : String) (r : Record)
    (h : retrieve_page soup url = .ok r) :
    r.power_hp.isSome = r.power_kw.isSome ∧
    r.wet_weight_kg.isSome = r.wet_weight_lb.isSome ∧
    r.dry_weight_kg.isSome = r.dry_weight_lb.isSome := by
  obtain ⟨-, h2, h3, h4, -, -, -, -, -⟩ := retrieve_page_ok h
  exact ⟨parse_power_conull soup _ h2, parse_weight_conull soup wetKey _ h3,
         parse_weight_conull soup dryKey _ h4⟩


/-- C5 witness: the record extracted from `docPower`. -/
theorem claim_C5_wit :
    retrieve_page docPower ("u") = .ok powerRec ∧
    (powerRec.power_hp.isSome = powerRec.power_kw.isSome ∧
     powerRec.wet_weight_kg.isSome = powerRec.wet_weight_lb.isSome ∧
     powerRec.dry_weight_kg.isSome = powerRec.dry_weight_lb.isSome) :=
  ⟨by decide, claim_C5 docPower ("u") powerRec (by decide)⟩

/-- C6: every record emitted by `retrieve_page` carries the originating URL
verbatim in its `url` field, whatever the other lookups did. -/
theorem claim_C6 (soup : Node) (url : String) (r : Record)
    (h : retrieve_page soup url = .ok r) : r.url = url :=
  (retrieve_page_ok h).2.2.2.2.2.2.2.2


/-- C6 witness: the record extracted from `docYear`. -/
theorem claim_C6_wit :
    retrieve_page docYear ("u") = .ok yearRec ∧ yearRec.url = ("u") :=
  ⟨by decide, claim_C6 docYear ("u") yearRec (by decide)⟩


/-- C1 counterexample: on `docC1` the year label is located with text `N/A`;
`int()` fails, `retrieve_page` raises instead of emitting a record with only
the year absent, so the claim as stated is false on the code. -/
theorem claim_C1_cex :
    retrieve_entry docC1 yearKey = .ok (some ("N/A")) ∧
    pyInt (("N/A").data) = none ∧
    retrieve_page docC1 ("u") = .error ("ValueError: int") ∧
    emitted (retrieve_page docC1 ("u")) = false := by
  decide

/-- C1 witness: the amended abort clause applied to `docC1`. -/
theorem claim_C1_wit :
    retrieve_entry docC1 yearKey = .ok (some ("N/A")) ∧
    pyInt (("N/A").data) = none ∧
    retrieve_page docC1 ("u") = .error ("ValueError: int") :=
  ⟨by decide, by decide,
    claim_C1.2.2.1 docC1 ("u") none (none, none) (none, none) (none, none) ("N/A")
      (by decide) (by decide) (by decide) (by decide) (by decide) (by decide)⟩

/-- C7: the structural branch of the field locator.  A label found as an
emphasis element reads the second `td` of its two-level ancestor, a label
found as a hyperlink reads the second `td` of its three-level ancestor, and
the two canonical page shapes yield the identical value string for the same
label/value pair. -/
theorem claim_C7 :
    (∀ soup : Node, ∀ key : String → Bool, ∀ found p1 rowAnc : Node, ∀ rest : List Node,
        findAB soup key = some (found, p1 :: rowAnc :: rest) → tagOf found ≠ some ("a") →
        retrieve_entry soup key = Except.map some (secondTdText rowAnc)) ∧
    (∀ soup : Node, ∀ key : String → Bool, ∀ found p1 p2 rowAnc : Node, ∀ rest : List Node,
        findAB soup key = some (found, p1 :: p2 :: rowAnc :: rest) → tagOf found = some ("a") →
        retrieve_entry soup key = Except.map some (secondTdText rowAnc)) ∧
    (∀ label value : String, ∀ key : String → Bool, key label = true →
        retrieve_entry (embShape label value) key = .ok (some value) ∧
        retrieve_entry (linkShape label value) key = .ok (some value)) := by
  refine ⟨?_, ?_, ?_⟩
  · intro soup key found p1 rowAnc rest hfind htag
    unfold retrieve_entry
    rw [hfind]
    dsimp only []
    rw [if_neg]
    intro hh
    exact htag (by simpa using hh)
  · intro soup key found p1 p2 rowAnc rest hfind htag
    unfold retrieve_entry
    rw [hfind]
    dsimp only []
    rw [if_pos (by simp [htag])]
  · intro label value key hkey
    constructor
    · simp [retrieve_entry, findAB, findL, findN, keyMatches, nodeString, embShape, mkDoc,
            row, hkey, secondTdText, findAllN, findAllList, findAllSelf, textOf, textOfList,
            tagOf, Except.map]
    · simp [retrieve_entry, findAB, findL, findN, keyMatches, nodeString, linkShape, mkDoc,
            row, hkey, secondTdText, findAllN, findAllList, findAllSelf, textOf, textOfList,
            tagOf, Except.map]

/-- C7 witness: label `Year:` with value `2003` in both shapes. -/
theorem claim_C7_wit :
    ((fun s => s == ("Year:")) ("Year:")) = true ∧
    retrieve_entry (embShape ("Year:") ("2003")) (fun s => s == ("Year:")) = .ok (some ("2003")) ∧
    retrieve_entry (linkShape ("Year:") ("2003")) (fun s => s == ("Year:")) = .ok (some ("2003")) :=
  ⟨by decide,
   (claim_C7.2.2 ("Year:") ("2003") (fun s => s == ("Year:")) (by decide)).1,
   (claim_C7.2.2 ("Year:") ("2003") (fun s => s == ("Year:")) (by decide)).2⟩

lemma pySplitlines_joinNl (urls : List String)
    (h : ∀ u ∈ urls, u ≠ "" ∧ ∀ c ∈ u.data, lineBreakChar c = false) :
    pySplitlines (joinNl urls) = urls := by
  unfold pySplitlines
  rw [joinNl_data, splitlinesC_joinC]
  · rw [List.map_map]
    rw [show (String.mk ∘ String.data) = id from funext fun u => by cases u; rfl]
    exact List.map_id urls
  · intro u hu
    rw [List.mem_map] at hu
    obtain ⟨w, hw, rfl⟩ := hu
    obtain ⟨h1, h2⟩ := h w hw
    refine ⟨?_, h2⟩
    intro hnil
    apply h1
    cases w with
    | mk l =>
      rw [show l = [] from hnil]

/-- C9: page-list cache round-trip.  A present cache file is split into its
lines and returned verbatim with no network use; an absent cache returns the
fetched sequence and persists it newline-joined, and re-resolving from that
persisted cache returns the identical sequence (for nonempty identifiers
free of line-break characters). -/
theorem claim_C9 :
    (∀ content : String, ∀ net : List String,
        (parse_sitemap (some content) net).urls = pySplitlines content ∧
        (parse_sitemap (some content) net).usedNetwork = false) ∧
    (∀ urls : List String,
        (∀ u ∈ urls, u ≠ "" ∧ ∀ c ∈ u.data, lineBreakChar c = false) →
        (parse_sitemap none urls).urls = urls ∧
        (parse_sitemap none urls).cacheAfter = joinNl urls ∧
        ∀ net2 : List String,
          (parse_sitemap (some ((parse_sitemap none urls).cacheAfter)) net2).urls = urls ∧
          (parse_sitemap (some ((parse_sitemap none urls).cacheAfter)) net2).usedNetwork
            = false) := by
  refine ⟨fun content net => ⟨rfl, rfl⟩, ?_⟩
  intro urls h
  refine ⟨rfl, rfl, ?_⟩
  intro net2
  exact ⟨pySplitlines_joinNl urls h, rfl⟩

/-- C9 witness: a three-line cache file and a two-identifier fetch. -/
theorem claim_C9_wit :
    (parse_sitemap (some ("a\nb\nc")) [("x")]).urls = [("a"), ("b"), ("c")] ∧
    (parse_sitemap (some ("a\nb\nc")) [("x")]).usedNetwork = false ∧
    (parse_sitemap none [("u1"), ("u2")]).urls = [("u1"), ("u2")] ∧
    (parse_sitemap (some ((parse_sitemap none [("u1"), ("u2")]).cacheAfter)) []).urls
      = [("u1"), ("u2")] :=
  ⟨by rw [(claim_C9.1 ("a\nb\nc") [("x")]).1]; decide,
   (claim_C9.1 ("a\nb\nc") [("x")]).2,
   (claim_C9.2 [("u1"), ("u2")] (by decide)).1,
   ((claim_C9.2 [("u1"), ("u2")] (by decide)).2.2 []).1⟩

/-- C2 witness: derivation on `docEmpty` with power 100 and wet weight 200. -/
theorem claim_C2_wit :
    retrieve_entry docEmpty ratioKey = .ok none ∧
    parse_power_weight_ratio docEmpty (some 100) (some 200) (some 180) = .ok (some (1/2 : ℚ)) :=
  ⟨by decide, (claim_C2 docEmpty (by decide)).2.2.2⟩

/-- C3 witness: explicit ratio `0.7 HP/kg` on `docRatio` wins over any
derivation inputs. -/
theorem claim_C3_wit :
    retrieve_entry docRatio ratioKey = .ok (some ("0.7 HP/kg")) ∧
    search1 ratSuf (("0.7 HP/kg").data) = some (("0.7").data) ∧
    pyFloat (stripCommas (("0.7").data)) = some (7/10 : ℚ) ∧
    parse_power_weight_ratio docRatio (some 3) none none = .ok (some (7/10 : ℚ)) :=
  ⟨by decide, by decide, by decide,
    claim_C3 docRatio ("0.7 HP/kg") (("0.7").data) (7/10 : ℚ)
      (by decide) (by decide) (by decide) (some 3) none none⟩

/-- C10 witness: zero power yields an absent ratio and a zero wet weight
behaves like an absent one on `docEmpty`. -/
theorem claim_C10_wit :
    retrieve_entry docEmpty ratioKey = .ok none ∧
    parse_power_weight_ratio docEmpty (some 0) (some 200) (some 180) = .ok none ∧
    parse_power_weight_ratio docEmpty (some 100) (some 0) (some 180)
      = parse_power_weight_ratio docEmpty (some 100) none (some 180) :=
  ⟨by decide,
   (claim_C10 docEmpty (some 0) (some 200) (some 180)).2.2.2.1 (by decide),
   (claim_C10 docEmpty (some 100) (some 0) (some 180)).1⟩
